import Mathlib

/-!
# Verification of the direct-messaging core (backend/src/routes/post.js)

Shallow embedding of the messaging subsystem: the Mongo `Message` collection
becomes a `List Msg` (the store), each Express handler becomes a pure function
from the store (plus the request parameters and an injected clock / fresh id)
to an `Except ApiError` result carrying the updated store and the list of
emitted Socket.IO / push events.  Timestamps and ObjectIds are natural
numbers (milliseconds, resp. opaque ids).
-/

/-- Message kinds, from the `messageType` enum of `models/Message.js`
(`enum: ["text", "image", "file", "audio", "video"]`). -/
inductive MessageType where
  | text
  | image
  | file
  | audio
  | video
deriving DecidableEq, Repr

/-- One entry of the `reactions` array of a message
(`{ user, emoji, createdAt }` in `models/Message.js`). -/
structure Reaction where
  user : Nat
  emoji : String
  createdAt : Nat
deriving DecidableEq, Repr

/-- A persisted message document (`models/Message.js`). -/
structure Msg where
  id : Nat
  sender : Nat
  recipient : Nat
  content : String
  messageType : MessageType
  audioUrl : Option String
  audioDuration : Option Nat
  replyTo : Option Nat
  threadId : Option Nat
  reactions : List Reaction
  isRead : Bool
  readAt : Option Nat
  edited : Bool
  editedAt : Option Nat
  createdAt : Nat
deriving DecidableEq, Repr

/-- An HTTP error response: status code plus the `error` string, exactly as
the handlers produce them (`res.status(s).json({ error: msg })`). -/
structure ApiError where
  status : Nat
  error : String
deriving DecidableEq, Repr

/-- Events emitted by a handler: Socket.IO emissions to a user's room and
web-push dispatches (`sendPushToUser`). -/
inductive Event where
  | newMessage (room : Nat) (m : Msg)
  | messageSent (room : Nat) (m : Msg)
  | messageEdited (room : Nat) (m : Msg)
  | messageReaction (room : Nat) (messageId : Nat) (reactions : List Reaction)
  | push (userId : Nat) (title : String) (body : String)
deriving DecidableEq, Repr

/-- The message store: the `Message` collection as a list of documents. -/
abbrev Store := List Msg

/-- `Message.findById(id)`: first document with the given `_id`. -/
def findById (store : Store) (id : Nat) : Option Msg :=
  store.find? (fun m => m.id == id)

/-- Persisting a mutation of one fetched document (`msg.save()`): replace the
first document satisfying the fetch predicate by its updated version. -/
def updateFirst (p : Msg → Bool) (f : Msg → Msg) : Store → Store
  | [] => []
  | m :: ms => if p m then f m :: ms else m :: updateFirst p f ms

/-- The reaction toggle of `addReaction` (post.js lines 569–579): find the
first reaction by this user; if its emoji equals the new one, splice it out;
otherwise overwrite its emoji and refresh its timestamp; if the user has no
reaction, push a new entry at the end. -/
def toggleReactions (userId : Nat) (emoji : String) (now : Nat) :
    List Reaction → List Reaction
  | [] => [⟨userId, emoji, now⟩]
  | r :: rs =>
    if r.user = userId then
      if r.emoji = emoji then rs
      else { r with emoji := emoji, createdAt := now } :: rs
    else r :: toggleReactions userId emoji now rs

/-- `addReaction` handler (POST /:messageId/reactions).  The request's
`emoji` field is `Option String` (`none` = absent); an absent or empty emoji
is falsy in JS and rejected.  On success returns the reaction list of the
response, the updated store and the emitted events. -/
def addReaction (store : Store) (messageId userId : Nat) (emoji : Option String)
    (now : Nat) : Except ApiError (List Reaction × Store × List Event) :=
  match emoji with
  | none => .error ⟨400, "Emoji is required"⟩
  | some e =>
    if e = "" then .error ⟨400, "Emoji is required"⟩
    else
      match findById store messageId with
      | none => .error ⟨404, "Message not found"⟩
      | some msg =>
        let rs := toggleReactions userId e now msg.reactions
        let store' := updateFirst (fun m => m.id == messageId)
          (fun m => { m with reactions := rs }) store
        .ok (rs, store',
          [Event.messageReaction msg.recipient messageId rs,
           Event.messageReaction msg.sender messageId rs])

/-- The filter predicate of `removeReaction` (post.js lines 611–616): with a
truthy emoji keep a reaction unless it is this user's reaction with exactly
that emoji; with a falsy emoji keep only reactions by other users. -/
def keepReaction (userId : Nat) (emoji : Option String) (r : Reaction) : Bool :=
  match emoji with
  | some e =>
    if e = "" then r.user != userId
    else !(r.user == userId && r.emoji == e)
  | none => r.user != userId

/-- `removeReaction` handler (DELETE /:messageId/reactions).  Filters the
reaction list; if nothing was removed, answers 404 before any save or emit. -/
def removeReaction (store : Store) (messageId userId : Nat)
    (emoji : Option String) : Except ApiError (List Reaction × Store × List Event) :=
  match findById store messageId with
  | none => .error ⟨404, "Message not found"⟩
  | some msg =>
    let rs := msg.reactions.filter (keepReaction userId emoji)
    if rs.length = msg.reactions.length then
      .error ⟨404, "Reaction not found"⟩
    else
      let store' := updateFirst (fun m => m.id == messageId)
        (fun m => { m with reactions := rs }) store
      .ok (rs, store',
        [Event.messageReaction msg.recipient messageId rs,
         Event.messageReaction msg.sender messageId rs])

/-- The store after a `removeReaction` request: on an error response the
handler returned before `msg.save()`, so the collection is untouched. -/
def removeReactionStore (store : Store) (messageId userId : Nat)
    (emoji : Option String) : Store :=
  match removeReaction store messageId userId emoji with
  | .ok (_, s, _) => s
  | .error _ => store

/-- The events observed after a `removeReaction` request: on an error
response the handler returned before any `io.emit`. -/
def removeReactionEvents (store : Store) (messageId userId : Nat)
    (emoji : Option String) : List Event :=
  match removeReaction store messageId userId emoji with
  | .ok (_, _, evs) => evs
  | .error _ => []

/-- `markAsRead` handler (PUT /:messageId/read), from post.js lines 639–666
and controllers/messageController.js: a single `findOneAndUpdate` with filter
`{ _id, recipient: userId, isRead: false }` setting `isRead`/`readAt`; when
no document matches it answers 404 "Message not found or already read". -/
def markAsRead (store : Store) (messageId userId now : Nat) :
    Except ApiError (String × Store) :=
  let p := fun (m : Msg) => m.id == messageId && m.recipient == userId && m.isRead == false
  match store.find? p with
  | none => .error ⟨404, "Message not found or already read"⟩
  | some _ =>
    .ok ("Message marked as read",
      updateFirst p (fun m => { m with isRead := true, readAt := some now }) store)

/-- `content.trim()`: strip leading and trailing whitespace (structural
model of the JS string trim, on the character list of the string). -/
def strTrim (s : String) : String :=
  ⟨((s.data.dropWhile Char.isWhitespace).reverse.dropWhile Char.isWhitespace).reverse⟩

/-- `editMessage` handler (PUT /:messageId).  The request body's `content`
is `Option String`; a missing or all-whitespace content is rejected 400.
The fetch is `findOne({ _id: messageId, sender: userId })`, so a missing
message and a message owned by another sender produce the same 404. -/
def editMessage (store : Store) (messageId userId : Nat)
    (content : Option String) (now : Nat) :
    Except ApiError (Msg × Store × List Event) :=
  match content with
  | none => .error ⟨400, "Content is required"⟩
  | some c =>
    if strTrim c = "" then .error ⟨400, "Content is required"⟩
    else
      match store.find? (fun m => m.id == messageId && m.sender == userId) with
      | none => .error ⟨404, "Message not found or not authorized"⟩
      | some msg =>
        let msg' := { msg with content := strTrim c, edited := true, editedAt := some now }
        .ok (msg',
          updateFirst (fun m => m.id == messageId && m.sender == userId)
            (fun m => { m with content := strTrim c, edited := true, editedAt := some now })
            store,
          [Event.messageEdited msg'.recipient msg', Event.messageEdited msg'.sender msg'])

/-- Thread resolution inside `sendMessage` / `uploadVoiceNote` (post.js
lines 419–426 and 240–245): `let threadId = null; if (replyTo) { const
parent = await Message.findById(replyTo); if (parent) threadId =
parent.threadId ? parent.threadId : parent._id; }` — when the parent is
missing, `threadId` stays null. -/
def resolveThread (store : Store) (replyTo : Option Nat) : Option Nat :=
  match replyTo with
  | none => none
  | some pid =>
    match findById store pid with
    | none => none
    | some parent => some (parent.threadId.getD parent.id)

/-- `sendMessage` handler (POST /api/messages).  `users` is the set of
existing user ids (the User collection), `newId` the ObjectId Mongo assigns
on insert, `now` the creation timestamp.  The request's `recipientId` and
`content` are optional and a missing or empty (falsy) value is rejected 400.
After the insert, the root-thread patch runs only when `replyTo` is absent:
`if (!replyTo && !message.threadId) { message.threadId = message._id; }`. -/
def sendMessage (users : List Nat) (store : Store) (newId now senderId : Nat)
    (recipientId : Option Nat) (content : Option String)
    (messageType : MessageType) (replyTo : Option Nat) :
    Except ApiError (Msg × Store × List Event) :=
  match recipientId, content with
  | some rid, some c =>
    if c = "" then .error ⟨400, "Recipient and content are required"⟩
    else if !(users.contains rid) then .error ⟨404, "Recipient not found"⟩
    else
      let threadId := resolveThread store replyTo
      let m0 : Msg :=
        { id := newId, sender := senderId, recipient := rid, content := c,
          messageType := messageType, audioUrl := none, audioDuration := none,
          replyTo := replyTo, threadId := threadId, reactions := [],
          isRead := false, readAt := none, edited := false, editedAt := none,
          createdAt := now }
      let m1 := if replyTo = none ∧ m0.threadId = none
        then { m0 with threadId := some m0.id } else m0
      .ok (m1, store ++ [m1],
        [Event.newMessage rid m1, Event.messageSent senderId m1,
         Event.push rid "New message" "sent you a message"])
  | _, _ => .error ⟨400, "Recipient and content are required"⟩

/-- `uploadVoiceNote` handler (POST /api/messages/voice).  `file` is the
multer upload (`none` = no file part), `secureUrl`/`uploadDuration` the
Cloudinary result.  The message is created with `content: ''`,
`messageType: 'audio'`, and the same thread resolution and root patch as
`sendMessage`. -/
def uploadVoiceNote (users : List Nat) (store : Store) (newId now senderId : Nat)
    (recipientId : Option Nat) (replyTo : Option Nat) (duration : Option Nat)
    (file : Option String) (secureUrl : String) (uploadDuration : Option Nat) :
    Except ApiError (Msg × Store × List Event) :=
  match recipientId with
  | none => .error ⟨400, "recipientId is required"⟩
  | some rid =>
    match file with
    | none => .error ⟨400, "audio file is required"⟩
    | some _ =>
      if !(users.contains rid) then .error ⟨404, "Recipient not found"⟩
      else
        let threadId := resolveThread store replyTo
        let m0 : Msg :=
          { id := newId, sender := senderId, recipient := rid, content := "",
            messageType := MessageType.audio, audioUrl := some secureUrl,
            audioDuration := match duration with
              | some d => some d
              | none => uploadDuration,
            replyTo := replyTo, threadId := threadId, reactions := [],
            isRead := false, readAt := none, edited := false, editedAt := none,
            createdAt := now }
        let m1 := if replyTo = none ∧ m0.threadId = none
          then { m0 with threadId := some m0.id } else m0
        .ok (m1, store ++ [m1],
          [Event.newMessage rid m1, Event.messageSent senderId m1,
           Event.push rid "New voice note" "sent a voice message"])

/-- Does `needle` occur at the start of `hay`? (helper for the regex
substring match of the `q` filter). -/
def startsWithChars : List Char → List Char → Bool
  | [], _ => true
  | _ :: _, [] => false
  | n :: ns, h :: hs => n == h && startsWithChars ns hs

/-- Case-sensitive substring occurrence on character lists; the handler's
escaped regex `new RegExp(escaped, 'i')` is a case-insensitive substring
test, modelled below by lowering both sides first. -/
def containsChars (needle : List Char) : List Char → Bool
  | [] => needle.isEmpty
  | h :: hs => startsWithChars needle (h :: hs) || containsChars needle hs

/-- The optional text filter of `getMessages`: applied only when `q` is
present and nonblank, it matches `content` case-insensitively. -/
def textMatches (q : Option String) (m : Msg) : Bool :=
  match q with
  | none => true
  | some s =>
    if strTrim s = "" then true
    else containsChars s.toLower.toList m.content.toLower.toList

/-- Milliseconds per day. -/
def msPerDay : Nat := 86400000

/-- `e.setHours(23, 59, 59, 999)`: move a timestamp to the last millisecond
of its day (modelled on UTC days). -/
def endOfDay (t : Nat) : Nat := t - t % msPerDay + (msPerDay - 1)

/-- The inclusive date-range filter of `getMessages` (post.js lines
334–347).  Note the code calls `e.setHours(23, 59, 59, 999)` on every
provided `end`, date-only or not. -/
def inRange (dateStart dateEnd : Option Nat) (t : Nat) : Bool :=
  (match dateStart with
    | some s => s ≤ t
    | none => true) &&
  (match dateEnd with
    | some e => t ≤ endOfDay e
    | none => true)

/-- The full `Message.find` criteria of `getMessages`: the two-sided sender/
recipient disjunction, the exclusive `before` cursor, the inclusive date
range and the text filter. -/
def msgCriteria (currentUserId otherUserId : Nat) (before : Option Nat)
    (q : Option String) (dateStart dateEnd : Option Nat) (m : Msg) : Bool :=
  ((m.sender == currentUserId && m.recipient == otherUserId) ||
   (m.sender == otherUserId && m.recipient == currentUserId)) &&
  (match before with
    | some b => m.createdAt < b
    | none => true) &&
  inRange dateStart dateEnd m.createdAt &&
  textMatches q m

/-- `limit = Math.max(1, Math.min(parseInt(limitQuery) || 50, 100))`. -/
def clampLimit (limitQuery : Option Nat) : Nat :=
  max 1 (min (limitQuery.getD 50) 100)

/-- Newest-first ordering used by `.sort({ createdAt: -1 })`. -/
def newerFirst (a b : Msg) : Prop := b.createdAt ≤ a.createdAt

instance : DecidableRel newerFirst := fun a b => Nat.decLe b.createdAt a.createdAt

instance : IsTotal Msg newerFirst := ⟨fun a b => le_total b.createdAt a.createdAt⟩

instance : IsTrans Msg newerFirst := ⟨fun _ _ _ hab hbc => le_trans hbc hab⟩

/-- Strict newest-first ordering; on a query result with pairwise-distinct
creation timestamps the newest-first sort is sorted by this strict
relation, which pins the result order uniquely. -/
def strictNewer (a b : Msg) : Prop := b.createdAt < a.createdAt

instance : IsAntisymm Msg strictNewer :=
  ⟨fun _ _ h1 h2 => absurd h1 (Nat.lt_asymm h2)⟩

/-- The newest-first result sequence of the `Message.find(...).sort({
createdAt: -1 })` query of `getMessages`. -/
def pageSortedDesc (store : Store) (currentUserId otherUserId : Nat)
    (before : Option Nat) (q : Option String) (dateStart dateEnd : Option Nat) :
    List Msg :=
  (store.filter
    (msgCriteria currentUserId otherUserId before q dateStart dateEnd)).insertionSort newerFirst

/-- `getMessages` handler (GET /:userId), post.js lines 323–399: filter,
sort newest-first, fetch `limit + 1` rows, compute `hasMore`, drop the
extra row, reverse to ascending order, and as a side effect mark every
returned message addressed to the requester as read.  Returns
`(orderedAsc, hasMore, updated store)`. -/
def getMessages (store : Store) (currentUserId otherUserId : Nat)
    (before : Option Nat) (limitQuery : Option Nat) (q : Option String)
    (dateStart dateEnd : Option Nat) : List Msg × Bool × Store :=
  let limit := clampLimit limitQuery
  let sorted := pageSortedDesc store currentUserId otherUserId before q dateStart dateEnd
  let fetched := sorted.take (limit + 1)
  let hasMore := decide (limit < fetched.length)
  let limited := if hasMore then fetched.take limit else fetched
  let orderedAsc := limited.reverse
  let unreadIds := (orderedAsc.filter
    (fun m => m.recipient == currentUserId && m.isRead == false)).map (fun m => m.id)
  let store' := store.map
    (fun m => if unreadIds.contains m.id then { m with isRead := true } else m)
  (orderedAsc, hasMore, store')

/-- Backward pagination driven by the client: request a page, and while
`hasMore` holds, request the next page with the cursor set to the creation
timestamp of the oldest (first, in ascending order) message of the current
page, prepending older pages in front.  `fuel` bounds the recursion. -/
def chainPages (store : Store) (currentUserId otherUserId : Nat)
    (limitQuery : Option Nat) (fuel : Nat) (before : Option Nat) : List Msg :=
  match fuel with
  | 0 => []
  | fuel' + 1 =>
    let res := getMessages store currentUserId otherUserId before limitQuery none none none
    match res.1 with
    | [] => []
    | m0 :: rest =>
      if res.2.1 then
        chainPages store currentUserId otherUserId limitQuery fuel' (some m0.createdAt)
          ++ (m0 :: rest)
      else m0 :: rest

/-- The `$group._id` of the conversations aggregation: the counterpart of a
message relative to the requesting user (`$cond` on `sender == userId`). -/
def counterpart (uid : Nat) (m : Msg) : Nat :=
  if m.sender == uid then m.recipient else m.sender

/-- One group produced by the conversations aggregation: counterpart id,
the `$first` document after the newest-first `$sort` (the group's most
recent message), and the unread `$sum`. -/
structure ConvEntry where
  key : Nat
  lastMessage : Msg
  unreadCount : Nat
deriving DecidableEq, Repr

/-- Newest-first ordering of conversation groups by the timestamp of their
most recent message (the final `$sort` of the pipeline). -/
def convNewerFirst (a b : ConvEntry) : Prop :=
  b.lastMessage.createdAt ≤ a.lastMessage.createdAt

instance : DecidableRel convNewerFirst :=
  fun a b => Nat.decLe b.lastMessage.createdAt a.lastMessage.createdAt

instance : IsTotal ConvEntry convNewerFirst :=
  ⟨fun a b => le_total b.lastMessage.createdAt a.lastMessage.createdAt⟩

instance : IsTrans ConvEntry convNewerFirst := ⟨fun _ _ _ hab hbc => le_trans hbc hab⟩

/-- Build the group document for counterpart `k` from the newest-first
sorted message list: `lastMessage` is `$first`, `unreadCount` counts group
messages with `recipient == uid` and `isRead == false`. -/
def convEntry (uid : Nat) (sorted : List Msg) (k : Nat) : Option ConvEntry :=
  match sorted.filter (fun m => counterpart uid m == k) with
  | [] => none
  | m :: ms =>
    some ⟨k, m, ((m :: ms).filter (fun g => g.recipient == uid && g.isRead == false)).length⟩

/-- The `$match` stage of the conversations aggregation: messages where the
user is sender or recipient. -/
def involvesUser (uid : Nat) (m : Msg) : Bool :=
  m.sender == uid || m.recipient == uid

/-- The `$match` + `$sort { createdAt: -1 }` stages of the conversations
aggregation. -/
def convSorted (store : Store) (uid : Nat) : List Msg :=
  (store.filter (involvesUser uid)).insertionSort newerFirst

/-- The distinct `$group` keys (counterparts), in order of first appearance
in the sorted stream. -/
def convKeys (store : Store) (uid : Nat) : List Nat :=
  ((convSorted store uid).map (counterpart uid)).dedup

/-- The `$group` + `$lookup`/`$unwind` stages: one entry per counterpart,
keeping only counterparts that still exist in the User collection. -/
def convEntries (users : List Nat) (store : Store) (uid : Nat) : List ConvEntry :=
  ((convKeys store uid).filterMap (convEntry uid (convSorted store uid))).filter
    (fun e => users.contains e.key)

/-- The full aggregation pipeline of `getConversations` (post.js lines
123–197): `$match` messages involving the user, `$sort` newest first,
`$group` by counterpart with `$first`/unread `$sum`, `$lookup`+`$unwind`
against the User collection (dropping groups whose counterpart user no
longer exists), and a final `$sort` by `lastMessage.createdAt` descending. -/
def conversationsAggregate (users : List Nat) (store : Store) (uid : Nat) :
    List ConvEntry :=
  (convEntries users store uid).insertionSort convNewerFirst

/-- `getConversations` handler (GET /conversations): run the aggregation
over the complete message set, then apply offset pagination
(`slice(skip, skip + limit)`).  Returns the page, the total conversation
count and `hasMore`. -/
def getConversations (users : List Nat) (store : Store) (uid page limit : Nat) :
    List ConvEntry × Nat × Bool :=
  let skip := (page - 1) * limit
  let agg := conversationsAggregate users store uid
  let total := agg.length
  let conversations := (agg.drop skip).take limit
  let totalPages := (total + limit - 1) / limit
  (conversations, total, decide (page < totalPages))

/-- A plain text message (used to build concrete stores in examples). -/
def mkText (i s r t : Nat) : Msg :=
  { id := i, sender := s, recipient := r, content := "hi", messageType := .text,
    audioUrl := none, audioDuration := none, replyTo := none, threadId := some i,
    reactions := [], isRead := false, readAt := none, edited := false, editedAt := none,
    createdAt := t }

/-- The store after an `addReaction` request (original store on error). -/
def addReactionStore (store : Store) (messageId userId : Nat) (emoji : Option String)
    (now : Nat) : Store :=
  match addReaction store messageId userId emoji now with
  | .ok (_, s, _) => s
  | .error _ => store

theorem toggleReactions_append_of_none (uid : Nat) (e : String) (n : Nat)
    (rs l : List Reaction) (h : ∀ r ∈ rs, r.user ≠ uid) :
    toggleReactions uid e n (rs ++ l) = rs ++ toggleReactions uid e n l := by
  induction rs with
  | nil => simp
  | cons r rs ih =>
    have hr : r.user ≠ uid := h r (by simp)
    simp [toggleReactions, hr, ih (fun x hx => h x (by simp [hx]))]

theorem toggleReactions_of_none (uid : Nat) (e : String) (n : Nat)
    (rs : List Reaction) (h : ∀ r ∈ rs, r.user ≠ uid) :
    toggleReactions uid e n rs = rs ++ [⟨uid, e, n⟩] := by
  have := toggleReactions_append_of_none uid e n rs [] h
  simpa [toggleReactions] using this

theorem toggleReactions_roundtrip_of_none (uid : Nat) (e : String) (n1 n2 : Nat)
    (rs : List Reaction) (h : ∀ r ∈ rs, r.user ≠ uid) :
    toggleReactions uid e n2 (toggleReactions uid e n1 rs) = rs := by
  rw [toggleReactions_of_none uid e n1 rs h,
    toggleReactions_append_of_none uid e n2 rs _ h]
  simp [toggleReactions]

theorem filter_toggleReactions_of_filter_nil (uid : Nat) (e : String) (n : Nat)
    (rs : List Reaction) (h : rs.filter (fun r => r.user == uid) = []) :
    (toggleReactions uid e n rs).filter (fun r => r.user == uid) = [⟨uid, e, n⟩] := by
  have h' : ∀ r ∈ rs, r.user ≠ uid := by
    intro r hr
    have := List.filter_eq_nil_iff.mp h r hr
    simpa using this
  rw [toggleReactions_of_none uid e n rs h']
  simp [List.filter_append, h]

theorem filter_toggleReactions_of_filter_same (uid : Nat) (e : String) (n : Nat)
    (rs : List Reaction) (r : Reaction)
    (h : rs.filter (fun x => x.user == uid) = [r]) (he : r.emoji = e) :
    (toggleReactions uid e n rs).filter (fun x => x.user == uid) = [] := by
  induction rs with
  | nil => simp at h
  | cons a rs ih =>
    by_cases ha : a.user = uid
    · have hfa : (a :: rs).filter (fun x => x.user == uid) = a :: rs.filter (fun x => x.user == uid) := by
        simp [List.filter_cons, ha]
      rw [hfa] at h
      have har : a = r := (List.cons_eq_cons.mp h).1
      have htl : rs.filter (fun x => x.user == uid) = [] := (List.cons_eq_cons.mp h).2
      subst har
      simp [toggleReactions, ha, he, htl]
    · have hfa : (a :: rs).filter (fun x => x.user == uid) = rs.filter (fun x => x.user == uid) := by
        simp [List.filter_cons, ha]
      rw [hfa] at h
      simp [toggleReactions, ha, List.filter_cons, ih h]

theorem filter_toggleReactions_of_filter_other (uid : Nat) (e : String) (n : Nat)
    (rs : List Reaction) (r : Reaction)
    (h : rs.filter (fun x => x.user == uid) = [r]) (he : r.emoji ≠ e) :
    (toggleReactions uid e n rs).filter (fun x => x.user == uid) = [⟨uid, e, n⟩] := by
  induction rs with
  | nil => simp at h
  | cons a rs ih =>
    by_cases ha : a.user = uid
    · have hfa : (a :: rs).filter (fun x => x.user == uid) = a :: rs.filter (fun x => x.user == uid) := by
        simp [List.filter_cons, ha]
      rw [hfa] at h
      have har : a = r := (List.cons_eq_cons.mp h).1
      have htl : rs.filter (fun x => x.user == uid) = [] := (List.cons_eq_cons.mp h).2
      subst har
      simp [toggleReactions, ha, he, List.filter_cons, htl]
    · have hfa : (a :: rs).filter (fun x => x.user == uid) = rs.filter (fun x => x.user == uid) := by
        simp [List.filter_cons, ha]
      rw [hfa] at h
      simp [toggleReactions, ha, List.filter_cons, ih h]

theorem findById_updateFirst (store : Store) (mid : Nat) (f : Msg → Msg)
    (hf : ∀ m, (f m).id = m.id) :
    findById (updateFirst (fun m => m.id == mid) f store) mid =
      (findById store mid).map f := by
  induction store with
  | nil => simp [findById, updateFirst]
  | cons m ms ih =>
    by_cases hm : m.id = mid
    · simp [findById, updateFirst, List.find?, hm, hf]
    · have hmb : (m.id == mid) = false := by simp [hm]
      simp only [updateFirst, findById, List.find?, hmb] at *
      simp [hmb, ih]

theorem addReaction_unfold (store : Store) (mid uid : Nat) (e : String) (n : Nat)
    (msg : Msg) (he : e ≠ "") (hfind : findById store mid = some msg) :
    addReaction store mid uid (some e) n =
      .ok (toggleReactions uid e n msg.reactions,
        updateFirst (fun m => m.id == mid)
          (fun m => { m with reactions := toggleReactions uid e n msg.reactions }) store,
        [Event.messageReaction msg.recipient mid (toggleReactions uid e n msg.reactions),
         Event.messageReaction msg.sender mid (toggleReactions uid e n msg.reactions)]) := by
  simp [addReaction, he, hfind]

theorem findById_updateFirst_reactions (store : Store) (mid : Nat)
    (rs : List Reaction) (msg : Msg) (hfind : findById store mid = some msg) :
    findById (updateFirst (fun m => m.id == mid)
      (fun m => { m with reactions := rs }) store) mid =
      some { msg with reactions := rs } := by
  rw [findById_updateFirst store mid (fun m => { m with reactions := rs })
    (fun m => rfl), hfind]
  rfl

/-- C2 (counterexample): toggling the same emoji twice by the same user does
not always leave the user reaction-free — if the user already holds that
emoji, the first toggle removes it and the second adds it back.  Concretely,
user 9 holds "a" on message 1; after two `addReaction` toggles with "a" the
persisted message again carries a reaction by user 9. -/
theorem addReaction_double_toggle_readds_reaction :
    (addReactionStore (addReactionStore
        [{ mkText 1 5 2 10 with reactions := [⟨9, "a", 0⟩] }] 1 9 (some "a") 4)
        1 9 (some "a") 5).map Msg.reactions = [[⟨9, "a", 5⟩]] ∧
      (⟨9, "a", 5⟩ : Reaction).user = 9 := by
  constructor
  · rfl
  · rfl

/-- C2 (amended): if the user holds no reaction on the message beforehand,
toggling the same emoji twice by that user restores the original reaction
set — the second `addReaction` responds with the original reaction list and
the persisted message is exactly the original document, so no reaction by
that user is recorded. -/
theorem addReaction_toggle_toggle_restores (store : Store) (mid uid : Nat)
    (e : String) (n1 n2 : Nat) (msg : Msg)
    (he : e ≠ "") (hfind : findById store mid = some msg)
    (hnone : ∀ r ∈ msg.reactions, r.user ≠ uid) :
    ∃ rs1 s1 evs1, addReaction store mid uid (some e) n1 = .ok (rs1, s1, evs1) ∧
      ∃ rs2 s2 evs2, addReaction s1 mid uid (some e) n2 = .ok (rs2, s2, evs2) ∧
        rs2 = msg.reactions ∧ findById s2 mid = some msg := by
  have h1 := addReaction_unfold store mid uid e n1 msg he hfind
  have hf1 := findById_updateFirst_reactions store mid
    (toggleReactions uid e n1 msg.reactions) msg hfind
  have h2 := addReaction_unfold _ mid uid e n2
    { msg with reactions := toggleReactions uid e n1 msg.reactions } he hf1
  have hround : toggleReactions uid e n2 (toggleReactions uid e n1 msg.reactions)
      = msg.reactions :=
    toggleReactions_roundtrip_of_none uid e n1 n2 msg.reactions hnone
  refine ⟨_, _, _, h1, _, _, _, h2, ?_, ?_⟩
  · exact hround
  · have hf2 := findById_updateFirst_reactions _ mid
      (toggleReactions uid e n2 (toggleReactions uid e n1 msg.reactions))
      { msg with reactions := toggleReactions uid e n1 msg.reactions } hf1
    have hm : ({ msg with
        reactions := toggleReactions uid e n2 (toggleReactions uid e n1 msg.reactions) } : Msg)
        = msg := by rw [hround]
    exact hf2.trans (congrArg some hm)

/-- Witness for the amended C2 theorem at a concrete input: message 1 with
an empty reaction set, user 9 toggling "a" twice. -/
theorem addReaction_toggle_toggle_restores_witness :
    ∃ rs1 s1 evs1, addReaction [mkText 1 5 2 10] 1 9 (some "a") 4 = .ok (rs1, s1, evs1) ∧
      ∃ rs2 s2 evs2, addReaction s1 1 9 (some "a") 5 = .ok (rs2, s2, evs2) ∧
        rs2 = (mkText 1 5 2 10).reactions ∧ findById s2 1 = some (mkText 1 5 2 10) :=
  addReaction_toggle_toggle_restores [mkText 1 5 2 10] 1 9 "a" 4 5 (mkText 1 5 2 10)
    (by decide) (by rfl) (by intro r hr; simp [mkText] at hr)

/-- C3: starting from a message on which the user holds at most one reaction
(the invariant the toggle maintains), toggling emoji `e1` and then a
different emoji `e2` leaves exactly one reaction by that user, bearing `e2`
with the refreshed timestamp of the second call; after the intermediate
first toggle the user also holds at most one reaction, so at no point does
one user hold two simultaneous reactions. -/
theorem addReaction_then_other_emoji (store : Store) (mid uid : Nat)
    (e1 e2 : String) (n1 n2 : Nat) (msg : Msg)
    (hne : e1 ≠ e2) (he1 : e1 ≠ "") (he2 : e2 ≠ "")
    (hfind : findById store mid = some msg)
    (huniq : (msg.reactions.filter (fun r => r.user == uid)).length ≤ 1) :
    ∃ rs1 s1 evs1, addReaction store mid uid (some e1) n1 = .ok (rs1, s1, evs1) ∧
      (rs1.filter (fun r => r.user == uid)).length ≤ 1 ∧
      ∃ rs2 s2 evs2, addReaction s1 mid uid (some e2) n2 = .ok (rs2, s2, evs2) ∧
        rs2.filter (fun r => r.user == uid) = [⟨uid, e2, n2⟩] := by
  have h1 := addReaction_unfold store mid uid e1 n1 msg he1 hfind
  have hf1 := findById_updateFirst_reactions store mid
    (toggleReactions uid e1 n1 msg.reactions) msg hfind
  have h2 := addReaction_unfold _ mid uid e2 n2
    { msg with reactions := toggleReactions uid e1 n1 msg.reactions } he2 hf1
  have key : ((toggleReactions uid e1 n1 msg.reactions).filter
        (fun r => r.user == uid)).length ≤ 1 ∧
      (toggleReactions uid e2 n2 (toggleReactions uid e1 n1 msg.reactions)).filter
        (fun r => r.user == uid) = [⟨uid, e2, n2⟩] := by
    rcases hfil : msg.reactions.filter (fun r => r.user == uid) with _ | ⟨r, rest⟩
    · have ha := filter_toggleReactions_of_filter_nil uid e1 n1 msg.reactions hfil
      refine ⟨by rw [ha]; simp, ?_⟩
      exact filter_toggleReactions_of_filter_other uid e2 n2 _ ⟨uid, e1, n1⟩ ha hne
    · have hrest : rest = [] := by
        rw [hfil] at huniq
        simpa using huniq
      subst hrest
      by_cases hre : r.emoji = e1
      · have ha := filter_toggleReactions_of_filter_same uid e1 n1 msg.reactions r hfil hre
        refine ⟨by rw [ha]; simp, ?_⟩
        exact filter_toggleReactions_of_filter_nil uid e2 n2 _ ha
      · have ha := filter_toggleReactions_of_filter_other uid e1 n1 msg.reactions r hfil hre
        refine ⟨by rw [ha]; simp, ?_⟩
        exact filter_toggleReactions_of_filter_other uid e2 n2 _ ⟨uid, e1, n1⟩ ha hne
  exact ⟨_, _, _, h1, key.1, _, _, _, h2, key.2⟩

/-- Witness for the C3 theorem: message 1 carries reaction "x" by user 9;
toggling "a" then "b". -/
theorem addReaction_then_other_emoji_witness :
    ∃ rs1 s1 evs1, addReaction [{ mkText 1 5 2 10 with reactions := [⟨9, "x", 0⟩] }]
        1 9 (some "a") 4 = .ok (rs1, s1, evs1) ∧
      (rs1.filter (fun r => r.user == 9)).length ≤ 1 ∧
      ∃ rs2 s2 evs2, addReaction s1 1 9 (some "b") 5 = .ok (rs2, s2, evs2) ∧
        rs2.filter (fun r => r.user == 9) = [⟨9, "b", 5⟩] :=
  addReaction_then_other_emoji [{ mkText 1 5 2 10 with reactions := [⟨9, "x", 0⟩] }]
    1 9 "a" "b" 4 5 { mkText 1 5 2 10 with reactions := [⟨9, "x", 0⟩] }
    (by decide) (by decide) (by decide) (by rfl) (by simp [mkText])

/-- C9: when `removeReaction` finds the message but no reaction matches (the
filter keeps every entry: no reaction by that user, or — emoji given — none
with that exact emoji), the handler answers 404 "Reaction not found" having
returned before `msg.save()` and before any `io.emit`: the store is
untouched and no reaction-changed event is observed. -/
theorem removeReaction_no_match_unchanged (store : Store) (mid uid : Nat)
    (emoji : Option String) (msg : Msg)
    (hfind : findById store mid = some msg)
    (hkeep : ∀ r ∈ msg.reactions, keepReaction uid emoji r = true) :
    removeReaction store mid uid emoji = .error ⟨404, "Reaction not found"⟩ ∧
      removeReactionStore store mid uid emoji = store ∧
      removeReactionEvents store mid uid emoji = [] := by
  have hfl : msg.reactions.filter (keepReaction uid emoji) = msg.reactions :=
    List.filter_eq_self.mpr hkeep
  have h : removeReaction store mid uid emoji = .error ⟨404, "Reaction not found"⟩ := by
    simp [removeReaction, hfind, hfl]
  exact ⟨h, by simp [removeReactionStore, h], by simp [removeReactionEvents, h]⟩

/-- Witness for the C9 theorem: message 1 carries only a reaction by user 9;
user 3 asks to remove reaction "a". -/
theorem removeReaction_no_match_unchanged_witness :
    removeReaction [{ mkText 1 5 2 10 with reactions := [⟨9, "a", 0⟩] }] 1 3 (some "a") =
        .error ⟨404, "Reaction not found"⟩ ∧
      removeReactionStore [{ mkText 1 5 2 10 with reactions := [⟨9, "a", 0⟩] }] 1 3 (some "a") =
        [{ mkText 1 5 2 10 with reactions := [⟨9, "a", 0⟩] }] ∧
      removeReactionEvents [{ mkText 1 5 2 10 with reactions := [⟨9, "a", 0⟩] }] 1 3 (some "a") = [] :=
  removeReaction_no_match_unchanged [{ mkText 1 5 2 10 with reactions := [⟨9, "a", 0⟩] }]
    1 3 (some "a") { mkText 1 5 2 10 with reactions := [⟨9, "a", 0⟩] }
    (by rfl) (by decide)

/-- C10: `sendMessage` rejects a missing or empty body with the 400
InvalidArgument response for every message kind (the check `!recipientId ||
!content` precedes any use of `messageType`), and a voice-note upload — the
dedicated path for non-text, empty-body messages — always persists the
message with `content = ""`. -/
theorem send_empty_body_rejected :
    (∀ (users : List Nat) (store : Store) (newId now senderId rid : Nat)
        (mt : MessageType) (replyTo : Option Nat) (content : Option String),
      content = none ∨ content = some "" →
      sendMessage users store newId now senderId (some rid) content mt replyTo =
        .error ⟨400, "Recipient and content are required"⟩) ∧
    (∀ (users : List Nat) (store : Store) (newId now senderId : Nat)
        (recipientId replyTo : Option Nat) (duration : Option Nat)
        (file : Option String) (secureUrl : String) (uploadDuration : Option Nat)
        (m : Msg) (s : Store) (evs : List Event),
      uploadVoiceNote users store newId now senderId recipientId replyTo duration
          file secureUrl uploadDuration = .ok (m, s, evs) →
      m.content = "") := by
  constructor
  · rintro users store newId now senderId rid mt replyTo content (rfl | rfl)
    · rfl
    · simp [sendMessage]
  · intro users store newId now senderId recipientId replyTo duration file secureUrl
      uploadDuration m s evs h
    cases recipientId with
    | none => simp [uploadVoiceNote] at h
    | some rid =>
      cases file with
      | none => simp [uploadVoiceNote] at h
      | some f =>
        by_cases hr : rid ∈ users
        · simp only [uploadVoiceNote, Except.ok.injEq, Prod.mk.injEq] at h
          rw [if_neg (by simp [hr])] at h
          cases h
          split
          · rfl
          · rfl
        · simp [uploadVoiceNote, hr] at h

/-- Witness for the C10 theorem: an empty-body audio send is rejected 400,
and a concrete successful voice-note upload persists `content = ""`. -/
theorem send_empty_body_rejected_witness :
    sendMessage [2] [] 1 10 5 (some 2) (some "") MessageType.audio none =
      .error ⟨400, "Recipient and content are required"⟩ ∧
    ({ id := 1, sender := 5, recipient := 2, content := "",
       messageType := MessageType.audio, audioUrl := some "url", audioDuration := none,
       replyTo := none, threadId := some 1, reactions := [], isRead := false,
       readAt := none, edited := false, editedAt := none, createdAt := 10 } : Msg).content = "" := by
  constructor
  · exact send_empty_body_rejected.1 [2] [] 1 10 5 2 MessageType.audio none
      (some "") (Or.inr rfl)
  · exact send_empty_body_rejected.2 [2] [] 1 10 5 (some 2) none none (some "f")
      "url" none _ _ _ (by rfl)

theorem findById_eq_some_of_mem (store : Store) (mid : Nat) (x : Msg)
    (hids : (store.map Msg.id).Nodup) (hx : x ∈ store) (hxid : x.id = mid) :
    findById store mid = some x := by
  induction store with
  | nil => simp at hx
  | cons m ms ih =>
    rcases List.mem_cons.mp hx with rfl | hx'
    · simp [findById, List.find?, hxid]
    · have hm : m.id ≠ mid := by
        intro hcontra
        have : m.id ∈ ms.map Msg.id := by
          rw [hcontra, ← hxid]
          exact List.mem_map_of_mem Msg.id hx'
        exact (List.nodup_cons.mp (by simpa using hids)).1 this
      have hmb : (m.id == mid) = false := by simp [hm]
      simp only [findById, List.find?, hmb]
      exact ih (List.nodup_cons.mp (by simpa using hids)).2 hx'

theorem find?_read_none_of_no_id (store : Store) (mid uid : Nat)
    (h : ∀ x ∈ store, x.id ≠ mid) :
    store.find? (fun m => m.id == mid && m.recipient == uid && m.isRead == false)
      = none := by
  refine List.find?_eq_none.mpr (fun x hx => ?_)
  simp [h x hx]

theorem find?_read_updateFirst_none (store : Store) (mid uid now : Nat)
    (hids : (store.map Msg.id).Nodup) :
    (updateFirst (fun m => m.id == mid && m.recipient == uid && m.isRead == false)
        (fun m => { m with isRead := true, readAt := some now }) store).find?
      (fun m => m.id == mid && m.recipient == uid && m.isRead == false) = none := by
  induction store with
  | nil => simp [updateFirst]
  | cons m ms ih =>
    by_cases hpm : (m.id == mid && m.recipient == uid && m.isRead == false) = true
    · simp only [updateFirst, if_pos hpm]
      have hmid : m.id = mid := by
        simp only [Bool.and_eq_true, beq_iff_eq] at hpm
        exact hpm.1.1
      have hnone : ∀ x ∈ ms, x.id ≠ mid := by
        intro x hx hcontra
        have : m.id ∈ ms.map Msg.id := by
          rw [hmid, ← hcontra]
          exact List.mem_map_of_mem Msg.id hx
        exact (List.nodup_cons.mp (by simpa using hids)).1 this
      have hrest := find?_read_none_of_no_id ms mid uid hnone
      have hstep : List.find? (fun m => m.id == mid && m.recipient == uid && m.isRead == false)
          (({ m with isRead := true, readAt := some now } : Msg) :: ms) =
          List.find? (fun m => m.id == mid && m.recipient == uid && m.isRead == false) ms := by
        simp [List.find?]
      rw [hstep]
      exact hrest
    · simp only [updateFirst, if_neg hpm]
      have hpb : (m.id == mid && m.recipient == uid && m.isRead == false) = false :=
        Bool.not_eq_true _ ▸ (by simpa using hpm)
      simp only [List.find?, hpb]
      exact ih (List.nodup_cons.mp (by simpa using hids)).2

theorem markAsRead_eq_error (store : Store) (mid uid now : Nat)
    (h : store.find? (fun m => m.id == mid && m.recipient == uid && m.isRead == false)
      = none) :
    markAsRead store mid uid now = .error ⟨404, "Message not found or already read"⟩ := by
  simp only [markAsRead]
  rw [h]

theorem markAsRead_eq_ok (store : Store) (mid uid now : Nat) (m0 : Msg)
    (h : store.find? (fun m => m.id == mid && m.recipient == uid && m.isRead == false)
      = some m0) :
    markAsRead store mid uid now = .ok ("Message marked as read",
      updateFirst (fun m => m.id == mid && m.recipient == uid && m.isRead == false)
        (fun m => { m with isRead := true, readAt := some now }) store) := by
  simp only [markAsRead]
  rw [h]

/-- C4: `markAsRead` fails — always with the one 404 response "Message not
found or already read" — exactly when the message id is absent, the caller
is not the recipient, or the message is already read (the three cases are
indistinguishable because the error value is the same constant); and a
second `markAsRead` after a successful one reports this failure, not
success. -/
theorem markAsRead_notFound_taxonomy (store : Store) (mid uid now now' : Nat)
    (hids : (store.map Msg.id).Nodup) :
    (markAsRead store mid uid now = .error ⟨404, "Message not found or already read"⟩ ↔
      (findById store mid = none ∨
        ∃ m, findById store mid = some m ∧ (m.recipient ≠ uid ∨ m.isRead = true))) ∧
    (∀ e, markAsRead store mid uid now = .error e →
      e = ⟨404, "Message not found or already read"⟩) ∧
    (∀ str s', markAsRead store mid uid now = .ok (str, s') →
      markAsRead s' mid uid now' = .error ⟨404, "Message not found or already read"⟩) := by
  refine ⟨⟨?_, ?_⟩, ?_, ?_⟩
  · intro herr
    cases hfp : store.find?
        (fun m => m.id == mid && m.recipient == uid && m.isRead == false) with
    | some m0 =>
      rw [markAsRead_eq_ok store mid uid now m0 hfp] at herr
      cases herr
    | none =>
      cases hf : findById store mid with
      | none => exact Or.inl rfl
      | some m =>
        refine Or.inr ⟨m, rfl, ?_⟩
        have hmem : m ∈ store := List.mem_of_find?_eq_some hf
        have hmid : m.id = mid := by
          have := List.find?_some hf
          simpa using this
        have hnp := List.find?_eq_none.mp hfp m hmem
        simp only [hmid, beq_self_eq_true, Bool.true_and, Bool.and_eq_true,
          beq_iff_eq, not_and] at hnp
        by_cases hrec : m.recipient = uid
        · right
          have := hnp hrec
          simpa using this
        · exact Or.inl hrec
  · intro hrhs
    have hfp : store.find?
        (fun m => m.id == mid && m.recipient == uid && m.isRead == false) = none := by
      cases hfp : store.find?
          (fun m => m.id == mid && m.recipient == uid && m.isRead == false) with
      | none => rfl
      | some m0 =>
        exfalso
        have hmem : m0 ∈ store := List.mem_of_find?_eq_some hfp
        have hp := List.find?_some hfp
        simp only [Bool.and_eq_true, beq_iff_eq] at hp
        obtain ⟨⟨hid, hrec⟩, hread⟩ := hp
        have hf0 : findById store mid = some m0 :=
          findById_eq_some_of_mem store mid m0 hids hmem hid
        rcases hrhs with hf | ⟨m, hf, hor⟩
        · rw [hf0] at hf; cases hf
        · rw [hf0] at hf
          obtain rfl := Option.some.inj hf
          rcases hor with h | h
          · exact h hrec
          · rw [hread] at h; cases h
    exact markAsRead_eq_error store mid uid now hfp
  · intro e he
    cases hfp : store.find?
        (fun m => m.id == mid && m.recipient == uid && m.isRead == false) with
    | some m0 =>
      rw [markAsRead_eq_ok store mid uid now m0 hfp] at he
      cases he
    | none =>
      rw [markAsRead_eq_error store mid uid now hfp] at he
      exact (Except.error.inj he).symm
  · intro str s' hok
    cases hfp : store.find?
        (fun m => m.id == mid && m.recipient == uid && m.isRead == false) with
    | none =>
      rw [markAsRead_eq_error store mid uid now hfp] at hok
      cases hok
    | some m0 =>
      rw [markAsRead_eq_ok store mid uid now m0 hfp] at hok
      have hpair := Except.ok.inj hok
      rw [Prod.ext_iff] at hpair
      obtain ⟨-, hs⟩ := hpair
      subst hs
      exact markAsRead_eq_error _ mid uid now'
        (find?_read_updateFirst_none store mid uid now hids)

/-- Witness for the C4 theorem: a one-message store (message 1 from user 2
to user 1, unread). -/
theorem markAsRead_notFound_taxonomy_witness :
    (markAsRead [mkText 1 2 1 10] 1 1 50 = .error ⟨404, "Message not found or already read"⟩ ↔
      (findById [mkText 1 2 1 10] 1 = none ∨
        ∃ m, findById [mkText 1 2 1 10] 1 = some m ∧ (m.recipient ≠ 1 ∨ m.isRead = true))) ∧
    (∀ e, markAsRead [mkText 1 2 1 10] 1 1 50 = .error e →
      e = ⟨404, "Message not found or already read"⟩) ∧
    (∀ str s', markAsRead [mkText 1 2 1 10] 1 1 50 = .ok (str, s') →
      markAsRead s' 1 1 60 = .error ⟨404, "Message not found or already read"⟩) :=
  markAsRead_notFound_taxonomy [mkText 1 2 1 10] 1 1 50 60 (by decide)

theorem find?_sender_none_of_findById_none (store : Store) (mid uid : Nat)
    (h : findById store mid = none) :
    store.find? (fun m => m.id == mid && m.sender == uid) = none := by
  refine List.find?_eq_none.mpr (fun x hx => ?_)
  have := List.find?_eq_none.mp h x hx
  simp at this
  simp [this]

theorem find?_sender_none_of_other_sender (store : Store) (mid uid : Nat) (m : Msg)
    (hids : (store.map Msg.id).Nodup)
    (h : findById store mid = some m) (hs : m.sender ≠ uid) :
    store.find? (fun x => x.id == mid && x.sender == uid) = none := by
  cases hfp : store.find? (fun x => x.id == mid && x.sender == uid) with
  | none => rfl
  | some m' =>
    exfalso
    have hmem : m' ∈ store := List.mem_of_find?_eq_some hfp
    have hp := List.find?_some hfp
    simp only [Bool.and_eq_true, beq_iff_eq] at hp
    have hf' : findById store mid = some m' :=
      findById_eq_some_of_mem store mid m' hids hmem hp.1
    rw [h] at hf'
    obtain rfl := Option.some.inj hf'
    exact hs hp.2

theorem editMessage_eq_404 (store : Store) (mid uid : Nat) (c : String) (now : Nat)
    (hc : ¬ strTrim c = "")
    (h : store.find? (fun m => m.id == mid && m.sender == uid) = none) :
    editMessage store mid uid (some c) now =
      .error ⟨404, "Message not found or not authorized"⟩ := by
  simp only [editMessage]
  rw [if_neg hc, h]

/-- C5 (counterexample): `edit` does not fail with a distinct Unauthorized
kind.  Message 1 exists with sender 5; actor 3 editing it receives exactly
the same 404 response — "Message not found or not authorized" — that
editing the nonexistent message 2 produces, so non-sender and not-found are
one conflated NotFound-class error. -/
theorem editMessage_conflates_unauthorized_with_notFound :
    editMessage [mkText 1 5 2 10] 1 3 (some "yo") 99 =
        .error ⟨404, "Message not found or not authorized"⟩ ∧
      editMessage [mkText 1 5 2 10] 2 3 (some "yo") 99 =
        .error ⟨404, "Message not found or not authorized"⟩ ∧
      findById [mkText 1 5 2 10] 1 = some (mkText 1 5 2 10) ∧
      (mkText 1 5 2 10).sender ≠ 3 :=
  ⟨editMessage_eq_404 [mkText 1 5 2 10] 1 3 "yo" 99 (by decide) (by rfl),
   editMessage_eq_404 [mkText 1 5 2 10] 2 3 "yo" 99 (by decide) (by rfl),
   by rfl, by decide⟩

/-- C5 (amended): `edit` fails `InvalidArgument` (400 "Content is
required") on a missing or all-whitespace body, and fails with the single
conflated NotFound-class error (404 "Message not found or not authorized")
both when the message does not exist and when the actor is not the original
sender of an existing message; the two failure causes are indistinguishable
in the response. -/
theorem editMessage_error_spec (store : Store) (mid uid : Nat) (c : String)
    (now : Nat) (hids : (store.map Msg.id).Nodup) :
    (editMessage store mid uid none now = .error ⟨400, "Content is required"⟩) ∧
    (strTrim c = "" →
      editMessage store mid uid (some c) now = .error ⟨400, "Content is required"⟩) ∧
    (strTrim c ≠ "" → findById store mid = none →
      editMessage store mid uid (some c) now =
        .error ⟨404, "Message not found or not authorized"⟩) ∧
    (strTrim c ≠ "" → ∀ m, findById store mid = some m → m.sender ≠ uid →
      editMessage store mid uid (some c) now =
        .error ⟨404, "Message not found or not authorized"⟩) := by
  refine ⟨rfl, ?_, ?_, ?_⟩
  · intro hc
    simp only [editMessage]
    rw [if_pos hc]
  · intro hc hnone
    exact editMessage_eq_404 store mid uid c now hc
      (find?_sender_none_of_findById_none store mid uid hnone)
  · intro hc m hm hs
    exact editMessage_eq_404 store mid uid c now hc
      (find?_sender_none_of_other_sender store mid uid m hids hm hs)

/-- Witness for the amended C5 theorem at the concrete one-message store. -/
theorem editMessage_error_spec_witness :
    (editMessage [mkText 1 5 2 10] 1 3 none 99 = .error ⟨400, "Content is required"⟩) ∧
    (strTrim "  " = "" →
      editMessage [mkText 1 5 2 10] 1 3 (some "  ") 99 =
        .error ⟨400, "Content is required"⟩) ∧
    (strTrim "  " ≠ "" → findById [mkText 1 5 2 10] 1 = none →
      editMessage [mkText 1 5 2 10] 1 3 (some "  ") 99 =
        .error ⟨404, "Message not found or not authorized"⟩) ∧
    (strTrim "  " ≠ "" → ∀ m, findById [mkText 1 5 2 10] 1 = some m → m.sender ≠ 3 →
      editMessage [mkText 1 5 2 10] 1 3 (some "  ") 99 =
        .error ⟨404, "Message not found or not authorized"⟩) :=
  editMessage_error_spec [mkText 1 5 2 10] 1 3 "  " 99 (by decide)

/-- C1 (counterexample): a send whose `replyTo` references a message absent
from the store succeeds (user 2 exists) but returns a message whose
`threadId` is null — the root patch `if (!replyTo && !message.threadId)` is
skipped because `replyTo` is set, contradicting "threadId is non-null for
every successful send". -/
theorem send_dangling_replyTo_null_threadId :
    (sendMessage [2] [] 1 10 5 (some 2) (some "hi") MessageType.text (some 99)).toOption.map
      (fun x => x.1.threadId) = some none := by
  rfl

/-- C1 (amended): for a successful send (or voice-note upload), the returned
message's `threadId` equals the parent's resolved thread id when `replyTo`
references an existing parent, its own id when `replyTo` is absent, and is
null when `replyTo` references a parent that no longer exists. -/
theorem sent_threadId_resolution :
    (∀ (users : List Nat) (store : Store) (newId now senderId : Nat)
        (recipientId : Option Nat) (content : Option String) (mt : MessageType)
        (replyTo : Option Nat) (m : Msg) (s : Store) (evs : List Event),
      sendMessage users store newId now senderId recipientId content mt replyTo =
          .ok (m, s, evs) →
      m.threadId = (match replyTo with
        | none => some m.id
        | some pid =>
          match findById store pid with
          | some parent => some (parent.threadId.getD parent.id)
          | none => none)) ∧
    (∀ (users : List Nat) (store : Store) (newId now senderId : Nat)
        (recipientId replyTo duration : Option Nat) (file : Option String)
        (secureUrl : String) (uploadDuration : Option Nat)
        (m : Msg) (s : Store) (evs : List Event),
      uploadVoiceNote users store newId now senderId recipientId replyTo duration
          file secureUrl uploadDuration = .ok (m, s, evs) →
      m.threadId = (match replyTo with
        | none => some m.id
        | some pid =>
          match findById store pid with
          | some parent => some (parent.threadId.getD parent.id)
          | none => none)) := by
  constructor
  · intro users store newId now senderId recipientId content mt replyTo m s evs h
    cases recipientId with
    | none => simp [sendMessage] at h
    | some rid =>
      cases content with
      | none => simp [sendMessage] at h
      | some c =>
        by_cases hc : c = ""
        · simp [sendMessage, hc] at h
        · by_cases hr : rid ∈ users
          · simp only [sendMessage] at h
            rw [if_neg hc, if_neg (by simp [hr])] at h
            cases h
            cases replyTo with
            | none => simp [resolveThread]
            | some pid =>
              cases hp : findById store pid with
              | none => simp [resolveThread, hp]
              | some parent => simp [resolveThread, hp]
          · simp [sendMessage, hc, hr] at h
  · intro users store newId now senderId recipientId replyTo duration file
      secureUrl uploadDuration m s evs h
    cases recipientId with
    | none => simp [uploadVoiceNote] at h
    | some rid =>
      cases file with
      | none => simp [uploadVoiceNote] at h
      | some f =>
        by_cases hr : rid ∈ users
        · simp only [uploadVoiceNote] at h
          rw [if_neg (by simp [hr])] at h
          cases h
          cases replyTo with
          | none => simp [resolveThread]
          | some pid =>
            cases hp : findById store pid with
            | none => simp [resolveThread, hp]
            | some parent => simp [resolveThread, hp]
        · simp [uploadVoiceNote, hr] at h

/-- Witness for the amended C1 theorem: a concrete root send (no `replyTo`)
whose returned message carries `threadId = some 1`, its own id. -/
theorem sent_threadId_resolution_witness :
    ({ id := 1, sender := 5, recipient := 2, content := "hi",
       messageType := MessageType.text, audioUrl := none, audioDuration := none,
       replyTo := none, threadId := some 1, reactions := [], isRead := false,
       readAt := none, edited := false, editedAt := none, createdAt := 10 } : Msg).threadId
      = some 1 :=
  sent_threadId_resolution.1 [2] [] 1 10 5 (some 2) (some "hi") MessageType.text none
    _ _ _ (by rfl)

/-- C8 (code bug): the handler's comment says "set to end of day if
date-only", but `e.setHours(23, 59, 59, 999)` runs on every provided `end`.
Concretely: with `dateEnd = 36000000` (10:00:00 on day 0, an explicit
instant), the message created at `50000000` (≈ 13:53 the same day) is still
returned, because the code widens the bound to `endOfDay 36000000 =
86399999`; under the claim the range would stop at `36000000` and exclude
it. -/
theorem getMessages_dateEnd_always_end_of_day :
    (getMessages [mkText 1 1 2 50000000] 1 2 none none none
        (some 0) (some 36000000)).1.map Msg.id = [1] ∧
      endOfDay 36000000 = 86399999 ∧
      36000000 < 50000000 ∧ 50000000 ≤ endOfDay 36000000 := by
  refine ⟨by rfl, by rfl, by decide, by decide⟩

theorem getConversations_fst (users : List Nat) (store : Store) (uid page limit : Nat) :
    (getConversations users store uid page limit).1 =
      ((conversationsAggregate users store uid).drop ((page - 1) * limit)).take limit :=
  rfl

theorem convEntry_key (uid : Nat) (sorted : List Msg) (k : Nat) (e : ConvEntry)
    (h : convEntry uid sorted k = some e) : e.key = k := by
  unfold convEntry at h
  cases hgl : sorted.filter (fun m => counterpart uid m == k) with
  | nil => rw [hgl] at h; cases h
  | cons m ms =>
    rw [hgl] at h
    obtain rfl := Option.some.inj h
    rfl

theorem map_key_filterMap_sublist (f : Nat → Option ConvEntry)
    (hf : ∀ k e, f k = some e → e.key = k) :
    ∀ l : List Nat, ((l.filterMap f).map (fun e => e.key)).Sublist l
  | [] => by simp
  | k :: l => by
    cases hfk : f k with
    | none =>
      rw [List.filterMap_cons_none hfk]
      exact (map_key_filterMap_sublist f hf l).cons k
    | some e =>
      rw [List.filterMap_cons_some hfk, List.map_cons, hf k e hfk]
      exact (map_key_filterMap_sublist f hf l).cons₂ k

theorem conversationsAggregate_keys_nodup (users : List Nat) (store : Store)
    (uid : Nat) :
    ((conversationsAggregate users store uid).map (fun e => e.key)).Nodup := by
  have h1 : (((convKeys store uid).filterMap
      (convEntry uid (convSorted store uid))).map (fun e => e.key)).Nodup :=
    List.Nodup.sublist
      (map_key_filterMap_sublist (convEntry uid (convSorted store uid))
        (fun k e h => convEntry_key uid (convSorted store uid) k e h)
        (convKeys store uid))
      (List.nodup_dedup _)
  have h2 : ((convEntries users store uid).map (fun e => e.key)).Nodup :=
    List.Nodup.sublist (List.Sublist.map _ (List.filter_sublist _)) h1
  have hperm : List.Perm (conversationsAggregate users store uid)
      (convEntries users store uid) :=
    List.perm_insertionSort convNewerFirst (convEntries users store uid)
  exact ((hperm.map (fun e => e.key)).nodup_iff).mpr h2

theorem conversationsAggregate_mem_spec (users : List Nat) (store : Store)
    (uid : Nat) (e : ConvEntry) (he : e ∈ conversationsAggregate users store uid) :
    e.lastMessage ∈ store ∧
    (e.lastMessage.sender = uid ∨ e.lastMessage.recipient = uid) ∧
    counterpart uid e.lastMessage = e.key ∧
    (∀ m ∈ store, (m.sender = uid ∨ m.recipient = uid) → counterpart uid m = e.key →
      m.createdAt ≤ e.lastMessage.createdAt) ∧
    e.unreadCount = store.countP (fun m =>
      (m.sender == uid || m.recipient == uid) && counterpart uid m == e.key &&
      m.recipient == uid && m.isRead == false) := by
  have he1 : e ∈ convEntries users store uid :=
    (List.mem_insertionSort convNewerFirst).mp he
  have he2 := (List.mem_filter.mp he1).1
  obtain ⟨k, hk, hfk⟩ := List.mem_filterMap.mp he2
  unfold convEntry at hfk
  cases hgl : (convSorted store uid).filter (fun m => counterpart uid m == k) with
  | nil => rw [hgl] at hfk; cases hfk
  | cons m ms =>
    rw [hgl] at hfk
    obtain rfl := Option.some.inj hfk
    have hmf : m ∈ (convSorted store uid).filter (fun x => counterpart uid x == k) := by
      rw [hgl]; exact List.mem_cons_self m ms
    have hms := List.mem_filter.mp hmf
    have hcp : counterpart uid m = k := by simpa using hms.2
    have hm2 := List.mem_filter.mp ((List.mem_insertionSort newerFirst).mp hms.1)
    have hminv : m.sender = uid ∨ m.recipient = uid := by
      have := hm2.2
      simp [involvesUser] at this
      exact this
    refine ⟨hm2.1, hminv, hcp, ?_, ?_⟩
    · intro m' hm' hinv' hcp'
      have hm'f : m' ∈ (convSorted store uid).filter (fun x => counterpart uid x == k) := by
        refine List.mem_filter.mpr ⟨(List.mem_insertionSort newerFirst).mpr ?_, by simp [hcp']⟩
        refine List.mem_filter.mpr ⟨hm', ?_⟩
        simp [involvesUser]
        exact hinv'
      rw [hgl] at hm'f
      rcases List.mem_cons.mp hm'f with rfl | hm'ms
      · exact le_refl _
      · have hsorted : (convSorted store uid).Sorted newerFirst :=
          List.sorted_insertionSort newerFirst _
        have hsf : ((convSorted store uid).filter
            (fun x => counterpart uid x == k)).Pairwise newerFirst :=
          hsorted.sublist (List.filter_sublist _)
        rw [hgl] at hsf
        exact (List.pairwise_cons.mp hsf).1 m' hm'ms
    · show ((m :: ms).filter (fun g => g.recipient == uid && g.isRead == false)).length = _
      rw [← List.countP_eq_length_filter, ← hgl, List.countP_filter]
      unfold convSorted
      rw [(List.perm_insertionSort newerFirst (store.filter (involvesUser uid))).countP_eq,
        List.countP_filter]
      refine List.countP_congr ?_
      intro x hx
      by_cases h1 : x.recipient = uid <;> by_cases h2 : x.isRead <;>
        by_cases h3 : counterpart uid x = k <;> by_cases h4 : x.sender = uid <;>
        simp [involvesUser, h1, h2, h3, h4]

/-- C7: `getConversations` pages are contiguous windows of one globally
computed aggregate: page 1 and page 2 of size N are `take N` and
`drop N |>.take N` of the full grouped list, so their counterpart sets are
disjoint and their ordered union is the first 2N items of a single page of
size 2N; the aggregate is sorted descending by its representative's
creation timestamp, and each entry carries the group's maximum-timestamp
message as representative together with the count of unread messages
addressed to the user. -/
theorem getConversations_paging_spec (users : List Nat) (store : Store)
    (uid N : Nat) :
    (getConversations users store uid 1 N).1 =
      (conversationsAggregate users store uid).take N ∧
    (getConversations users store uid 2 N).1 =
      ((conversationsAggregate users store uid).drop N).take N ∧
    (∀ e1 ∈ (getConversations users store uid 1 N).1,
      ∀ e2 ∈ (getConversations users store uid 2 N).1, e1.key ≠ e2.key) ∧
    ((getConversations users store uid 1 N).1 ++ (getConversations users store uid 2 N).1 =
      ((getConversations users store uid 1 (2 * N)).1).take (2 * N)) ∧
    (conversationsAggregate users store uid).Sorted convNewerFirst ∧
    (∀ e ∈ conversationsAggregate users store uid,
      e.lastMessage ∈ store ∧
      (e.lastMessage.sender = uid ∨ e.lastMessage.recipient = uid) ∧
      counterpart uid e.lastMessage = e.key ∧
      (∀ m ∈ store, (m.sender = uid ∨ m.recipient = uid) → counterpart uid m = e.key →
        m.createdAt ≤ e.lastMessage.createdAt) ∧
      e.unreadCount = store.countP (fun m =>
        (m.sender == uid || m.recipient == uid) && counterpart uid m == e.key &&
        m.recipient == uid && m.isRead == false)) := by
  have hpage1 : (getConversations users store uid 1 N).1 =
      (conversationsAggregate users store uid).take N := by
    rw [getConversations_fst]
    simp
  have hpage2 : (getConversations users store uid 2 N).1 =
      ((conversationsAggregate users store uid).drop N).take N := by
    rw [getConversations_fst]
    norm_num
  have hunion : (getConversations users store uid 1 N).1 ++
      (getConversations users store uid 2 N).1 =
      (conversationsAggregate users store uid).take (2 * N) := by
    rw [hpage1, hpage2, two_mul, List.take_add]
  refine ⟨hpage1, hpage2, ?_, ?_, ?_, ?_⟩
  · have hnodup := conversationsAggregate_keys_nodup users store uid
    have hseg : (((getConversations users store uid 1 N).1 ++
        (getConversations users store uid 2 N).1).map (fun e => e.key)).Nodup := by
      rw [hunion, List.map_take]
      exact List.Nodup.sublist (List.take_sublist _ _) hnodup
    rw [List.map_append] at hseg
    have hdisj := (List.nodup_append.mp hseg).2.2
    intro e1 he1 e2 he2 heq
    exact hdisj (List.mem_map_of_mem _ he1) (heq ▸ List.mem_map_of_mem (fun e => e.key) he2)
  · rw [hunion, getConversations_fst]
    simp [List.take_take]
  · unfold conversationsAggregate
    exact List.sorted_insertionSort convNewerFirst _
  · exact fun e he => conversationsAggregate_mem_spec users store uid e he

theorem getMessages_fst (store : Store) (cu ou : Nat) (before : Option Nat)
    (lq : Option Nat) (q : Option String) (ds de : Option Nat) :
    (getMessages store cu ou before lq q ds de).1 =
      ((pageSortedDesc store cu ou before q ds de).take (clampLimit lq)).reverse := by
  unfold getMessages
  dsimp only
  split
  · rw [List.take_take, Nat.min_eq_left (Nat.le_succ _)]
  · rename_i h
    simp only [decide_eq_true_eq, Nat.not_lt, List.length_take] at h
    have hle : (pageSortedDesc store cu ou before q ds de).length ≤ clampLimit lq := by
      omega
    rw [List.take_of_length_le (le_trans hle (Nat.le_succ _)), List.take_of_length_le hle]

theorem getMessages_hasMore (store : Store) (cu ou : Nat) (before : Option Nat)
    (lq : Option Nat) (q : Option String) (ds de : Option Nat) :
    ((getMessages store cu ou before lq q ds de).2.1 = true ↔
      clampLimit lq < (store.filter (msgCriteria cu ou before q ds de)).length) := by
  have h1 : (getMessages store cu ou before lq q ds de).2.1 =
      decide (clampLimit lq <
        ((pageSortedDesc store cu ou before q ds de).take (clampLimit lq + 1)).length) := rfl
  have hS := (List.perm_insertionSort newerFirst
    (store.filter (msgCriteria cu ou before q ds de))).length_eq
  rw [h1, decide_eq_true_iff, List.length_take]
  unfold pageSortedDesc
  constructor <;> intro hh <;> omega

theorem crit_mono_none (cu ou : Nat) (b : Option Nat) (m : Msg)
    (h : msgCriteria cu ou b none none none m = true) :
    msgCriteria cu ou none none none none m = true := by
  cases b with
  | none => exact h
  | some c =>
    simp only [msgCriteria, inRange, textMatches, Bool.and_eq_true,
      decide_eq_true_eq] at h ⊢
    tauto

theorem mem_getMessages_criteria (store : Store) (cu ou : Nat)
    (before lq : Option Nat) (q : Option String) (ds de : Option Nat) (m : Msg)
    (hm : m ∈ (getMessages store cu ou before lq q ds de).1) :
    msgCriteria cu ou before q ds de m = true := by
  rw [getMessages_fst] at hm
  have h1 : m ∈ pageSortedDesc store cu ou before q ds de :=
    List.take_subset _ _ (List.mem_reverse.mp hm)
  exact List.of_mem_filter ((List.mem_insertionSort newerFirst).mp h1)

theorem getMessages_sorted_asc (store : Store) (cu ou : Nat)
    (before lq : Option Nat) (q : Option String) (ds de : Option Nat) :
    (getMessages store cu ou before lq q ds de).1.Pairwise
      (fun a b => a.createdAt ≤ b.createdAt) := by
  rw [getMessages_fst]
  have hs : (pageSortedDesc store cu ou before q ds de).Pairwise newerFirst :=
    List.sorted_insertionSort newerFirst _
  have ht : ((pageSortedDesc store cu ou before q ds de).take (clampLimit lq)).Pairwise
      newerFirst :=
    List.Pairwise.sublist (List.take_sublist _ _) hs
  rw [List.pairwise_reverse]
  exact ht

theorem pairwise_strict_of_sorted_dist (l : List Msg)
    (hs : l.Pairwise newerFirst)
    (hd : l.Pairwise (fun a b => a.createdAt ≠ b.createdAt)) :
    l.Pairwise strictNewer :=
  (hs.and hd).imp (fun h => lt_of_le_of_ne h.1 (fun heq => h.2 heq.symm))

theorem pageSortedDesc_strict (store : Store) (cu ou : Nat) (b : Option Nat)
    (hdist : (store.filter (msgCriteria cu ou none none none none)).Pairwise
      (fun a b => a.createdAt ≠ b.createdAt)) :
    (pageSortedDesc store cu ou b none none none).Pairwise strictNewer := by
  have hsub : (store.filter (msgCriteria cu ou b none none none)).Sublist
      (store.filter (msgCriteria cu ou none none none none)) :=
    List.monotone_filter_right store (fun a ha => crit_mono_none cu ou b a ha)
  have hdb : (store.filter (msgCriteria cu ou b none none none)).Pairwise
      (fun a b => a.createdAt ≠ b.createdAt) := List.Pairwise.sublist hsub hdist
  have hdS : (pageSortedDesc store cu ou b none none none).Pairwise
      (fun a b => a.createdAt ≠ b.createdAt) :=
    ((List.perm_insertionSort newerFirst _).pairwise_iff (fun h => h.symm)).mpr hdb
  exact pairwise_strict_of_sorted_dist _ (List.sorted_insertionSort newerFirst _) hdS

theorem strict_filter_eq_drop (S : List Msg) (limit : Nat) (m0 : Msg) (rest : List Msg)
    (hS : S.Pairwise strictNewer)
    (hrev : (S.take limit).reverse = m0 :: rest) :
    S.filter (fun x => decide (x.createdAt < m0.createdAt)) = S.drop limit := by
  have hm0_take : m0 ∈ S.take limit := by
    have : m0 ∈ (S.take limit).reverse := by rw [hrev]; exact List.mem_cons_self _ _
    exact List.mem_reverse.mp this
  have htake_ge : ∀ a ∈ S.take limit, m0.createdAt ≤ a.createdAt := by
    intro a ha
    have ha' : a ∈ (S.take limit).reverse := List.mem_reverse.mpr ha
    rw [hrev] at ha'
    rcases List.mem_cons.mp ha' with rfl | harest
    · exact le_refl _
    · have hrevpw : ((S.take limit).reverse).Pairwise (fun a b => strictNewer b a) := by
        rw [List.pairwise_reverse]
        exact List.Pairwise.sublist (List.take_sublist _ _) hS
      rw [hrev] at hrevpw
      exact le_of_lt ((List.pairwise_cons.mp hrevpw).1 a harest)
  have hdrop_lt : ∀ x ∈ S.drop limit, x.createdAt < m0.createdAt := by
    intro x hx
    have hpw : (S.take limit ++ S.drop limit).Pairwise strictNewer := by
      rw [List.take_append_drop]; exact hS
    exact (List.pairwise_append.mp hpw).2.2 m0 hm0_take x hx
  have h1 : S.filter (fun x => decide (x.createdAt < m0.createdAt)) =
      (S.take limit).filter (fun x => decide (x.createdAt < m0.createdAt)) ++
        (S.drop limit).filter (fun x => decide (x.createdAt < m0.createdAt)) := by
    conv_lhs => rw [← List.take_append_drop limit S]
    rw [List.filter_append]
  have h2 : (S.take limit).filter (fun x => decide (x.createdAt < m0.createdAt)) = [] :=
    List.filter_eq_nil_iff.mpr
      (fun a ha => by simpa using Nat.not_lt.mpr (htake_ge a ha))
  have h3 : (S.drop limit).filter (fun x => decide (x.createdAt < m0.createdAt)) =
      S.drop limit :=
    List.filter_eq_self.mpr (fun x hx => by simpa using hdrop_lt x hx)
  rw [h1, h2, h3, List.nil_append]

theorem filter_crit_cursor (store : Store) (cu ou : Nat) (b : Option Nat) (t : Nat)
    (hb : ∀ x : Msg, x.createdAt < t → ∀ c, b = some c → x.createdAt < c) :
    store.filter (msgCriteria cu ou (some t) none none none) =
      (store.filter (msgCriteria cu ou b none none none)).filter
        (fun x => decide (x.createdAt < t)) := by
  rw [List.filter_filter]
  refine List.filter_congr ?_
  intro x _
  cases b with
  | none =>
    cases hpair : ((x.sender == cu && x.recipient == ou) ||
        (x.sender == ou && x.recipient == cu)) <;>
      by_cases h2 : x.createdAt < t <;>
      simp [msgCriteria, inRange, textMatches, hpair, h2]
  | some c =>
    cases hpair : ((x.sender == cu && x.recipient == ou) ||
        (x.sender == ou && x.recipient == cu)) <;>
      by_cases h2 : x.createdAt < t <;>
      simp [msgCriteria, inRange, textMatches, hpair, h2]
    exact hb x h2 c rfl

theorem pageSortedDesc_cursor (store : Store) (cu ou : Nat) (b : Option Nat) (t : Nat)
    (hdist : (store.filter (msgCriteria cu ou none none none none)).Pairwise
      (fun a b => a.createdAt ≠ b.createdAt))
    (hb : ∀ x : Msg, x.createdAt < t → ∀ c, b = some c → x.createdAt < c) :
    pageSortedDesc store cu ou (some t) none none none =
      (pageSortedDesc store cu ou b none none none).filter
        (fun x => decide (x.createdAt < t)) := by
  have hperm : List.Perm (pageSortedDesc store cu ou (some t) none none none)
      ((pageSortedDesc store cu ou b none none none).filter
        (fun x => decide (x.createdAt < t))) := by
    have p1 : List.Perm (pageSortedDesc store cu ou (some t) none none none)
        (store.filter (msgCriteria cu ou (some t) none none none)) :=
      List.perm_insertionSort newerFirst _
    rw [filter_crit_cursor store cu ou b t hb] at p1
    exact p1.trans
      ((List.perm_insertionSort newerFirst
        (store.filter (msgCriteria cu ou b none none none))).filter _).symm
  have hs1 : (pageSortedDesc store cu ou (some t) none none none).Sorted strictNewer :=
    pageSortedDesc_strict store cu ou (some t) hdist
  have hs2 : ((pageSortedDesc store cu ou b none none none).filter
      (fun x => decide (x.createdAt < t))).Sorted strictNewer :=
    List.Pairwise.sublist (List.filter_sublist _)
      (pageSortedDesc_strict store cu ou b hdist)
  exact List.eq_of_perm_of_sorted hperm hs1 hs2

theorem clampLimit_pos (lq : Option Nat) : 1 ≤ clampLimit lq :=
  le_max_left 1 _

theorem chainPages_reconstructs (store : Store) (cu ou : Nat) (lq : Option Nat)
    (hdist : (store.filter (msgCriteria cu ou none none none none)).Pairwise
      (fun a b => a.createdAt ≠ b.createdAt)) :
    ∀ (fuel : Nat) (b : Option Nat),
      (store.filter (msgCriteria cu ou b none none none)).length ≤ fuel →
      chainPages store cu ou lq fuel b =
        (pageSortedDesc store cu ou b none none none).reverse := by
  intro fuel
  induction fuel with
  | zero =>
    intro b hlen
    have h0 : store.filter (msgCriteria cu ou b none none none) = [] :=
      List.length_eq_zero.mp (Nat.le_zero.mp hlen)
    simp [chainPages, pageSortedDesc, h0]
  | succ fuel ih =>
    intro b hlen
    have hfst := getMessages_fst store cu ou b lq none none none
    cases hpage : (getMessages store cu ou b lq none none none).1 with
    | nil =>
      have htk : (pageSortedDesc store cu ou b none none none).take (clampLimit lq) = [] := by
        rw [hpage] at hfst
        simpa using hfst.symm
      have hS : pageSortedDesc store cu ou b none none none = [] := by
        rcases List.take_eq_nil_iff.mp htk with h | h
        · exact absurd h (by have := clampLimit_pos lq; omega)
        · exact h
      rw [hS]
      simp [chainPages, hpage]
    | cons m0 rest =>
      rw [hfst] at hpage
      by_cases hmore : clampLimit lq <
          (store.filter (msgCriteria cu ou b none none none)).length
      · have hbool : (getMessages store cu ou b lq none none none).2.1 = true :=
          (getMessages_hasMore store cu ou b lq none none none).mpr hmore
        have hchain : chainPages store cu ou lq (fuel + 1) b =
            chainPages store cu ou lq fuel (some m0.createdAt) ++ (m0 :: rest) := by
          simp only [chainPages, hfst, hpage, hbool, if_true]
        have hb' : ∀ x : Msg, x.createdAt < m0.createdAt → ∀ c, b = some c →
            x.createdAt < c := by
          intro x hx c hbc
          have hm0 : m0 ∈ (getMessages store cu ou b lq none none none).1 := by
            rw [hfst, hpage]; exact List.mem_cons_self _ _
          have hc := mem_getMessages_criteria store cu ou b lq none none none m0 hm0
          subst hbc
          simp only [msgCriteria, Bool.and_eq_true, decide_eq_true_eq] at hc
          have : m0.createdAt < c := hc.1.1.2
          omega
        have hstrict : (pageSortedDesc store cu ou b none none none).Pairwise strictNewer :=
          pageSortedDesc_strict store cu ou b hdist
        have hdropeq : pageSortedDesc store cu ou (some m0.createdAt) none none none =
            (pageSortedDesc store cu ou b none none none).drop (clampLimit lq) := by
          rw [pageSortedDesc_cursor store cu ou b m0.createdAt hdist hb']
          exact strict_filter_eq_drop _ _ m0 rest hstrict hpage
        have hlen' : (store.filter
            (msgCriteria cu ou (some m0.createdAt) none none none)).length ≤ fuel := by
          have e1 := (List.perm_insertionSort newerFirst (store.filter
            (msgCriteria cu ou (some m0.createdAt) none none none))).length_eq
          have e2 := (List.perm_insertionSort newerFirst (store.filter
            (msgCriteria cu ou b none none none))).length_eq
          have e3 : (pageSortedDesc store cu ou (some m0.createdAt) none none none).length =
              (pageSortedDesc store cu ou b none none none).length - clampLimit lq := by
            rw [hdropeq, List.length_drop]
          have hlim := clampLimit_pos lq
          unfold pageSortedDesc at e3
          omega
        rw [hchain, ih (some m0.createdAt) hlen', hdropeq]
        rw [← hpage, ← List.reverse_append, List.take_append_drop]
      · have hbool : (getMessages store cu ou b lq none none none).2.1 = false := by
          cases hb2 : (getMessages store cu ou b lq none none none).2.1 with
          | false => rfl
          | true =>
            exact absurd ((getMessages_hasMore store cu ou b lq none none none).mp hb2)
              hmore
        have hchain : chainPages store cu ou lq (fuel + 1) b = m0 :: rest := by
          simp only [chainPages, hfst, hpage, hbool]
          simp
        have hSlen : (pageSortedDesc store cu ou b none none none).length ≤
            clampLimit lq := by
          have e2 := (List.perm_insertionSort newerFirst (store.filter
            (msgCriteria cu ou b none none none))).length_eq
          unfold pageSortedDesc
          omega
        rw [hchain, ← hpage, List.take_of_length_le hSlen]

/-- C6: over a conversation whose messages have pairwise-distinct creation
timestamps, (i) a page never contains a message with `createdAt ≥` the
cursor, (ii) the page is the reversal of the newest-first fetch truncated to
`limit` (of the `limit + 1` fetched rows), hence ascending, (iii) `hasMore`
holds exactly when more than `limit` messages match (the extra row exists),
and (iv) chaining successive pages by the oldest returned cursor
reconstructs the full ascending history — with no duplicates or gaps, being
exactly the reversal of the complete newest-first sequence. -/
theorem getMessages_pagination_spec (store : Store) (cu ou : Nat)
    (lq before : Option Nat)
    (hdist : (store.filter (msgCriteria cu ou none none none none)).Pairwise
      (fun a b => a.createdAt ≠ b.createdAt)) :
    (∀ (b : Nat), ∀ m ∈ (getMessages store cu ou (some b) lq none none none).1,
      m.createdAt < b) ∧
    ((getMessages store cu ou before lq none none none).1 =
      ((pageSortedDesc store cu ou before none none none).take (clampLimit lq)).reverse) ∧
    ((getMessages store cu ou before lq none none none).1.Pairwise
      (fun a b => a.createdAt ≤ b.createdAt)) ∧
    ((getMessages store cu ou before lq none none none).2.1 = true ↔
      clampLimit lq < (store.filter (msgCriteria cu ou before none none none)).length) ∧
    (∀ fuel, (store.filter (msgCriteria cu ou before none none none)).length ≤ fuel →
      chainPages store cu ou lq fuel before =
        (pageSortedDesc store cu ou before none none none).reverse) := by
  refine ⟨?_, getMessages_fst store cu ou before lq none none none,
    getMessages_sorted_asc store cu ou before lq none none none,
    getMessages_hasMore store cu ou before lq none none none,
    fun fuel hf => chainPages_reconstructs store cu ou lq hdist fuel before hf⟩
  intro b m hm
  have hc := mem_getMessages_criteria store cu ou (some b) lq none none none m hm
  simp only [msgCriteria, Bool.and_eq_true, decide_eq_true_eq] at hc
  exact hc.1.1.2

/-- Witness for the C6 theorem: a three-message conversation between users
1 and 2 with distinct timestamps, paged with limit 2 and chained. -/
theorem getMessages_pagination_spec_witness :
    chainPages [mkText 1 1 2 10, mkText 2 2 1 20, mkText 3 1 2 30] 1 2 (some 2) 3 none =
      (pageSortedDesc [mkText 1 1 2 10, mkText 2 2 1 20, mkText 3 1 2 30]
        1 2 none none none none).reverse :=
  (getMessages_pagination_spec [mkText 1 1 2 10, mkText 2 2 1 20, mkText 3 1 2 30]
    1 2 (some 2) none (by decide)).2.2.2.2 3 (by decide)
